import Mathlib

/-!
Verification development for the Verilog-format netlister
(src/hdl21/netlist/verilog.py, class VerilogNetlister).

The netlister walks a protobuf circuit IR (Module, Instance, Port, Signal,
Parameter, Connection) and emits structural Verilog text through an
indentation-aware line writer.  The data model and the emission functions
below are translated from that source file.  A handful of collaborators the
source calls live in netlist/base.py, which is not part of the sources here
(writeln, get_module_name, resolve_reference, get_param_value,
get_param_default, format_connection dispatch); those are modelled from the
spec and carry a doc comment saying so.
-/

set_option linter.unusedVariables false

namespace Hdl21

/-- Port directions of the protobuf Port message.  In the IR a direction is
either one of the three legal Verilog directions or NONE; an unset proto
direction is represented by NONE here. -/
inductive Direction : Type
  | input
  | output
  | inout
  | none
  deriving DecidableEq, Repr

/-- A Signal: a name plus an integer bit-width (proto int64). -/
structure Signal where
  name : String
  width : Int
  deriving DecidableEq, Repr

/-- A Port: a Signal plus a Direction. -/
structure Port where
  signal : Signal
  direction : Direction
  deriving DecidableEq, Repr

/-- Underlying value of a protobuf Parameter.  The recognized kinds are
integer, double (floating-point) and string; the double case carries its
decimal literal rendering as text, since only that rendering is ever used by
the netlister.  The bool case stands for a value of an unrecognized kind,
as in the spec's example of a boolean-valued parameter. -/
inductive ParamValue : Type
  | integer (i : Int)
  | double (text : String)
  | string (s : String)
  | bool (b : Bool)
  deriving DecidableEq, Repr

/-- A Slice of a signal: the signal's name plus top and bottom indices
(pslice.signal, pslice.top, pslice.bot in the source). -/
structure Slice where
  signal : String
  top : Int
  bot : Int
  deriving DecidableEq, Repr

/-- A Connection: the oneof of the protobuf Connection message, dispatched
over by the netlister: a Signal reference, a Slice, or a Concat of parts. -/
inductive Connection : Type
  | sig (psig : Signal)
  | slice (pslice : Slice)
  | concat (parts : List Connection)

/-- Errors raised by the netlister.  The source raises RuntimeError or
ValueError with a message; each constructor here is one of the spec's error
kinds carrying the context that the corresponding message interpolates. -/
inductive NetlistError : Type
  | duplicateDefinition (name : String)
  | unresolvedReference (name : String)
  | unconnectedPort (port : String) (inst : String)
  | undirectedPort (pport : Port)
  | unsupportedParameterType
  deriving DecidableEq, Repr

/-- An Instance: a name, a module reference (by name), an insertion-ordered
mapping of parameter overrides, and a mapping of port-name to Connection. -/
structure Instance where
  name : String
  moduleRef : String
  parameters : List (String × Option ParamValue)
  connections : List (String × Connection)

/-- A Module: name, ordered ports, ordered signals, insertion-ordered
default parameters (each optionally carrying a value), ordered instances. -/
structure Module where
  name : String
  ports : List Port
  signals : List Signal
  default_parameters : List (String × Option ParamValue)
  instances : List Instance

/-- Modelled from the spec: get_param_value of netlist/base.py is not under
the given sources.  It renders a Parameter's value as a literal and, per the
spec's error table, fails with UnsupportedParameterType when the underlying
value is not one of the recognized kinds (or is absent entirely). -/
def get_param_value : Option ParamValue → Except NetlistError String
  | Option.some (ParamValue.integer i) => Except.ok (toString i)
  | Option.some (ParamValue.double text) => Except.ok text
  | Option.some (ParamValue.string s) => Except.ok s
  | Option.some (ParamValue.bool _) => Except.error NetlistError.unsupportedParameterType
  | Option.none => Except.error NetlistError.unsupportedParameterType

/-- Modelled from the spec: get_param_default of netlist/base.py is not under
the given sources.  It returns the parameter's literal default when a value
is present, absent when none is, and propagates the unsupported-kind error. -/
def get_param_default : Option ParamValue → Except NetlistError (Option String)
  | Option.none => Except.ok Option.none
  | Option.some v => (get_param_value (Option.some v)).map Option.some

/-- format_param_type (verilog.py lines 141-151): Verilog type-string for a
Parameter; raises (ValueError in the source, the spec's
UnsupportedParameterType kind) when the value is not a recognized kind. -/
def format_param_type : Option ParamValue → Except NetlistError String
  | Option.some (ParamValue.integer _) => Except.ok "longint"
  | Option.some (ParamValue.double _) => Except.ok "real"
  | Option.some (ParamValue.string _) => Except.ok "string"
  | _ => Except.error NetlistError.unsupportedParameterType

/-- format_param_decl (verilog.py lines 153-162): parameter keyword plus
name, plus an = default clause when the default exists.  The datatype from
format_param_type is computed nowhere: that call is commented out in the
source (FIXME note). -/
def format_param_decl (name : String) (param : Option ParamValue) : Except NetlistError String :=
  let rv := "parameter " ++ name
  match get_param_default param with
  | Except.error e => Except.error e
  | Except.ok Option.none => Except.ok rv
  | Except.ok (Option.some default) => Except.ok (rv ++ " = " ++ default)

/-- format_signal_ref (verilog.py lines 206-210): just the signal's name. -/
def format_signal_ref (psig : Signal) : String :=
  psig.name

/-- format_port_ref (verilog.py lines 200-204): the name of the port's
signal. -/
def format_port_ref (pport : Port) : String :=
  format_signal_ref pport.signal

/-- format_signal_slice (verilog.py lines 212-217): single-bit index when
top equals bot, otherwise a top:bot range; no validity check on indices. -/
def format_signal_slice (pslice : Slice) : String :=
  if pslice.top == pslice.bot then
    pslice.signal ++ "[" ++ toString pslice.top ++ "]"
  else
    pslice.signal ++ "[" ++ toString pslice.top ++ ":" ++ toString pslice.bot ++ "]"

/-- format_signal_decl (verilog.py lines 191-198): wire keyword, an explicit
bit range for vector signals, then the name. -/
def format_signal_decl (psig : Signal) : String :=
  let rv := "wire"
  let rv := if psig.width > 1 then rv ++ " [" ++ toString (psig.width - 1) ++ ":0]" else rv
  rv ++ " " ++ psig.name

/-- format_port_decl (verilog.py lines 170-189): maps the direction to its
Verilog keyword and prepends it to the signal declaration; a NONE (or unset)
direction raises (RuntimeError in the source, the spec's UndirectedPort
kind) carrying the port. -/
def format_port_decl (pport : Port) : Except NetlistError String :=
  match pport.direction with
  | Direction.input => Except.ok ("input" ++ " " ++ format_signal_decl pport.signal)
  | Direction.output => Except.ok ("output" ++ " " ++ format_signal_decl pport.signal)
  | Direction.inout => Except.ok ("inout" ++ " " ++ format_signal_decl pport.signal)
  | Direction.none => Except.error (NetlistError.undirectedPort pport)

mutual

/-- Modelled from the spec: format_connection of netlist/base.py is not
under the given sources.  It dispatches on the Connection variant: signal
reference, slice, or concatenation.  The concat branch is the body of
format_concat (verilog.py lines 164-168), inlined here so that the mutual
recursion is over the Connection tree. -/
def format_connection : Connection → String
  | Connection.sig psig => format_signal_ref psig
  | Connection.slice pslice => format_signal_slice pslice
  | Connection.concat parts => "\x7b" ++ String.intercalate ", " (format_parts parts) ++ "\x7d"

/-- The list comprehension inside format_concat: render every part through
format_connection, preserving order. -/
def format_parts : List Connection → List String
  | [] => []
  | c :: rest => format_connection c :: format_parts rest

end

/-- format_concat (verilog.py lines 164-168): render each part recursively,
join with a comma-space separator, wrap in Verilog concatenation braces. -/
def format_concat (parts : List Connection) : String :=
  "\x7b" ++ String.intercalate ", " (format_parts parts) ++ "\x7d"

/-- Modelled from the spec: the fixed indentation unit of the line writer of
netlist/base.py, which is not under the given sources.  Its exact text is
irrelevant to every claim; two spaces are used. -/
def tab : String := "  "

/-- The indentation text at depth n. -/
def tabs (n : Nat) : String := String.join (List.replicate n tab)

/-- One full output line: indentation, the text, a newline.  This is the
unit the line writer appends to its destination. -/
def emitLine (ind : Nat) (text : String) : String := tabs ind ++ text ++ "\n"

/-- The mutable state of a Netlister emission pass: the current indent
depth, the destination (the emitted lines in order), the registry of module
names already emitted, and the mapping from IR module name to definition.
This is the explicit form of the self state of the Python class. -/
structure NetlisterState where
  indent : Nat
  dest : List String
  module_names : List String
  pmodules : List (String × Module)

/-- Modelled from the spec: writeln of netlist/base.py is not under the
given sources.  It appends one line at the current indent to the
destination. -/
def writeln (st : NetlisterState) (line : String) : NetlisterState :=
  { st with dest := st.dest ++ [emitLine st.indent line] }

/-- The full output text of a state: its lines joined. -/
def output (st : NetlisterState) : String := String.join st.dest

/-- A character replaced by an identifier-legal one. -/
def legalize_char (c : Char) : Char :=
  if c.isAlphanum || c = Char.ofNat 95 then c else Char.ofNat 95

/-- Modelled from the spec: get_module_name of netlist/base.py is not under
the given sources.  It computes the canonical emission name by an
identifier-safe transformation of the module's name (format-specific
legalization, replacing illegal characters with underscores). -/
def get_module_name (module : Module) : String :=
  String.mk (module.name.data.map legalize_char)

/-- Python dict insertion self.pmodules[k] = v: replace the binding when the
key is present, append it otherwise. -/
def assocUpdate (xs : List (String × Module)) (k : String) (v : Module) : List (String × Module) :=
  match xs with
  | [] => [(k, v)]
  | (key, val) :: rest =>
    if key = k then (k, v) :: rest else (key, val) :: assocUpdate rest k v

/-- Modelled from the spec: resolve_reference of netlist/base.py is not
under the given sources.  Given an instance's module reference it returns
the target definition together with its canonical name, failing with
UnresolvedReference when the reference is not known to this pass. -/
def resolve_reference (st : NetlisterState) (ref : String) : Except NetlistError (Module × String) :=
  match List.lookup ref st.pmodules with
  | Option.some module => Except.ok (module, get_module_name module)
  | Option.none => Except.error (NetlistError.unresolvedReference ref)

/-- The parameter-override loop of write_instance (verilog.py lines
109-111): one name=value line per override, in mapping order, no separator.
An unrenderable value raises out of the loop; the state keeps the lines
already written. -/
def write_inst_params : NetlisterState → List (String × Option ParamValue) → NetlisterState × Option NetlistError
  | st, [] => (st, Option.none)
  | st, (pname, pparam) :: rest =>
    match get_param_value pparam with
    | Except.error e => (st, Option.some e)
    | Except.ok pval => write_inst_params (writeln st (pname ++ "=" ++ pval ++ " ")) rest

/-- The connection loop of write_instance (verilog.py lines 126-132): walk
the target's port names in order, look each up in the instance's
connections, raise UnconnectedPort on a miss, otherwise write the named
binding with a comma on every entry except the last (the source tests the
index against the length; testing the remainder for emptiness is the same
condition). -/
def write_inst_conns (iname : String) (conns : List (String × Connection)) : NetlisterState → List String → NetlisterState × Option NetlistError
  | st, [] => (st, Option.none)
  | st, pname :: rest =>
    match List.lookup pname conns with
    | Option.none => (st, Option.some (NetlistError.unconnectedPort pname iname))
    | Option.some pconn =>
      write_inst_conns iname conns
        (writeln st ("." ++ pname ++ "(" ++ format_connection pconn ++ ")" ++ (if rest.isEmpty then "" else ",") ++ " "))
        rest

/-- The parameter-value block of write_instance (verilog.py lines 106-115):
a no-parameters comment when the instance carries no overrides, otherwise
an open marker, the overrides one per line at one deeper indent, and a
close marker.  A raise inside the loop leaves the indent deepened, as the
Python exception does. -/
def inst_params_block (st : NetlisterState) (ps : List (String × Option ParamValue)) : NetlisterState × Option NetlistError :=
  if ps.isEmpty then (writeln st "// No parameters ", Option.none)
  else
    let st := writeln st "#( "
    let st := { st with indent := st.indent + 1 }
    match write_inst_params st ps with
    | (st, Option.some e) => (st, Option.some e)
    | (st, Option.none) =>
      let st := { st with indent := st.indent - 1 }
      (writeln st ") ", Option.none)

/-- The connection block of write_instance (verilog.py lines 120-137): a
no-ports comment when the target has no ports, otherwise the open marker,
the bindings in the target's declared port order at one deeper indent, and
the close marker. -/
def inst_conns_block (st : NetlisterState) (iname : String) (conns : List (String × Connection)) (module : Module) : NetlisterState × Option NetlistError :=
  if module.ports.isEmpty then (writeln st "// No ports ", Option.none)
  else
    let st := writeln st "( "
    let st := { st with indent := st.indent + 1 }
    match write_inst_conns iname conns st (module.ports.map (fun p => p.signal.name)) with
    | (st, Option.some e) => (st, Option.some e)
    | (st, Option.none) =>
      let st := { st with indent := st.indent - 1 }
      (writeln st "); ", Option.none)

/-- write_instance (verilog.py lines 96-139): resolve the target, write its
canonical name, the parameter-value block, the instance's own name, the
connection block, and a closing blank line. -/
def write_instance (st : NetlisterState) (pinst : Instance) : NetlisterState × Option NetlistError :=
  match resolve_reference st pinst.moduleRef with
  | Except.error e => (st, Option.some e)
  | Except.ok (module, module_name) =>
    let st := writeln st module_name
    match inst_params_block st pinst.parameters with
    | (st, Option.some e) => (st, Option.some e)
    | (st, Option.none) =>
      let st := writeln st pinst.name
      match inst_conns_block st pinst.name pinst.connections module with
      | (st, Option.some e) => (st, Option.some e)
      | (st, Option.none) => (writeln st "", Option.none)

/-- The default-parameter loop of write_module_definition (verilog.py lines
52-55): one declaration per parameter in declared order, a comma on every
entry except the last. -/
def write_module_params : NetlisterState → List (String × Option ParamValue) → NetlisterState × Option NetlistError
  | st, [] => (st, Option.none)
  | st, (name, pparam) :: rest =>
    match format_param_decl name pparam with
    | Except.error e => (st, Option.some e)
    | Except.ok decl =>
      write_module_params (writeln st (decl ++ (if rest.isEmpty then "" else ","))) rest

/-- The port loop of write_module_definition (verilog.py lines 65-67): one
declaration per port in declared order, a comma on every entry but the
last. -/
def write_module_ports : NetlisterState → List Port → NetlisterState × Option NetlistError
  | st, [] => (st, Option.none)
  | st, pport :: rest =>
    match format_port_decl pport with
    | Except.error e => (st, Option.some e)
    | Except.ok decl =>
      write_module_ports (writeln st (decl ++ (if rest.isEmpty then "" else ","))) rest

/-- The signal loop of write_module_definition (verilog.py lines 78-79). -/
def write_module_signals : NetlisterState → List Signal → NetlisterState
  | st, [] => st
  | st, psig :: rest => write_module_signals (writeln st (format_signal_decl psig ++ "; ")) rest

/-- The instance loop of write_module_definition (verilog.py lines 86-87);
an error from an instance aborts the remaining traversal. -/
def write_module_instances : NetlisterState → List Instance → NetlisterState × Option NetlistError
  | st, [] => (st, Option.none)
  | st, pinst :: rest =>
    match write_instance st pinst with
    | (st, Option.some e) => (st, Option.some e)
    | (st, Option.none) => write_module_instances st rest

/-- The default-parameter block of write_module_definition (verilog.py
lines 49-59). -/
def module_params_block (st : NetlisterState) (ps : List (String × Option ParamValue)) : NetlisterState × Option NetlistError :=
  if ps.isEmpty then (writeln st "// No parameters ", Option.none)
  else
    let st := writeln st "#( "
    let st := { st with indent := st.indent + 1 }
    match write_module_params st ps with
    | (st, Option.some e) => (st, Option.some e)
    | (st, Option.none) =>
      let st := { st with indent := st.indent - 1 }
      (writeln st ") ", Option.none)

/-- The port block of write_module_definition (verilog.py lines 61-71). -/
def module_ports_block (st : NetlisterState) (ports : List Port) : NetlisterState × Option NetlistError :=
  if ports.isEmpty then (writeln st "// No ports ", Option.none)
  else
    let st := writeln st "( "
    let st := { st with indent := st.indent + 1 }
    match write_module_ports st ports with
    | (st, Option.some e) => (st, Option.some e)
    | (st, Option.none) =>
      let st := { st with indent := st.indent - 1 }
      (writeln st "); ", Option.none)

/-- The signal block of write_module_definition (verilog.py lines 76-81). -/
def module_signals_block (st : NetlisterState) (sigs : List Signal) : NetlisterState :=
  if sigs.isEmpty then writeln st "// No Signal Declarations"
  else write_module_signals (writeln st "// Signal Declarations") sigs

/-- The instance block of write_module_definition (verilog.py lines
83-89). -/
def module_instances_block (st : NetlisterState) (insts : List Instance) : NetlisterState × Option NetlistError :=
  if insts.isEmpty then (writeln st "// No Instances", Option.none)
  else write_module_instances (writeln (writeln st "") "// Instance Declarations") insts

/-- write_module_definition (verilog.py lines 33-94): compute the canonical
name, raise DuplicateDefinition on a collision before any write, register
the name and the definition, then emit header, parameter block, port block,
blank line, signal block, instance block, and the endmodule closing
marker. -/
def write_module_definition (st : NetlisterState) (module : Module) : NetlisterState × Option NetlistError :=
  let module_name := get_module_name module
  if module_name ∈ st.module_names then
    (st, Option.some (NetlistError.duplicateDefinition module_name))
  else
    let st := { st with module_names := st.module_names ++ [module_name],
                        pmodules := assocUpdate st.pmodules module.name module }
    let st := writeln st ("module " ++ module_name)
    match module_params_block st module.default_parameters with
    | (st, Option.some e) => (st, Option.some e)
    | (st, Option.none) =>
      match module_ports_block st module.ports with
      | (st, Option.some e) => (st, Option.some e)
      | (st, Option.none) =>
        let st := writeln st ""
        let st := { st with indent := st.indent + 1 }
        let st := module_signals_block st module.signals
        match module_instances_block st module.instances with
        | (st, Option.some e) => (st, Option.some e)
        | (st, Option.none) =>
          let st := { st with indent := st.indent - 1 }
          let st := writeln st ""
          (writeln st ("endmodule // " ++ module_name ++ " \n\n"), Option.none)

/-- A fresh emission pass state: zero indent, empty destination, empty
registries. -/
def initial_state : NetlisterState :=
  { indent := 0, dest := [], module_names := [], pmodules := [] }

/-- Modelled from the spec: the pass driver of netlist/base.py (not under
the given sources) writes every module of the circuit in order through
write_module_definition, aborting on the first error. -/
def run_pass : NetlisterState → List Module → NetlisterState × Option NetlistError
  | st, [] => (st, Option.none)
  | st, module :: rest =>
    match write_module_definition st module with
    | (st, Option.some e) => (st, Option.some e)
    | (st, Option.none) => run_pass st rest

/-! Helper definitions used to state the claims. -/

/-- The comma-separation discipline of the emission loops: every entry but
the last gets a trailing comma, and every entry gets the fixed suffix the
loop appends after the separator position (empty for declaration lists, a
single space for connection bindings). -/
def withSeps (suffix : String) : List String → List String
  | [] => []
  | e :: rest => (e ++ (if rest.isEmpty then "" else ",") ++ suffix) :: withSeps suffix rest

/-- Map a fallible formatter over a list, failing at the first error:
the successful run of one of the formatting loops, as a value. -/
def exceptMap {α β : Type} (f : α → Except NetlistError β) : List α → Except NetlistError (List β)
  | [] => Except.ok []
  | a :: rest =>
    match f a with
    | Except.error e => Except.error e
    | Except.ok b =>
      match exceptMap f rest with
      | Except.error e => Except.error e
      | Except.ok bs => Except.ok (b :: bs)

/-- Map an optional-valued function over a list, returning none at the first miss. -/
def optionMap {α β : Type} (f : α → Option β) : List α → Option (List β)
  | [] => Option.some []
  | a :: rest =>
    match f a with
    | Option.none => Option.none
    | Option.some b =>
      match optionMap f rest with
      | Option.none => Option.none
      | Option.some bs => Option.some (b :: bs)

/-- The declared port order of a module: its ports' signal names, in
declaration order (port_order in write_instance). -/
def portNames (module : Module) : List String :=
  module.ports.map (fun p => p.signal.name)

/-- The named-binding text of one connection-block entry, before the comma
and trailing space: none when the port has no connection. -/
def bindingText (conns : List (String × Connection)) (pname : String) : Option String :=
  (List.lookup pname conns).map (fun pconn => "." ++ pname ++ "(" ++ format_connection pconn ++ ")")

/-- The text of one parameter-override line of write_instance, before the
writer's indentation and newline. -/
def paramLineText (x : String × Option ParamValue) : Except NetlistError String :=
  (get_param_value x.2).map (fun pval => x.1 ++ "=" ++ pval ++ " ")

/-- The lines of the instance parameter-value block. -/
def instParamLines (ind : Nat) (ps : List (String × Option ParamValue)) (texts : List String) : List String :=
  if ps.isEmpty then [emitLine ind "// No parameters "]
  else emitLine ind "#( " :: texts.map (emitLine (ind + 1)) ++ [emitLine ind ") "]

/-- The last character of a string, if any. -/
def lastChar (s : String) : Option Char := s.data.getLast?

/-! Concrete fixtures used by the witness theorems. -/

def exSignal : Signal := { name := "a", width := 1 }

def exSignalB : Signal := { name := "b", width := 4 }

def exPortA : Port := { signal := exSignal, direction := Direction.input }

def exPortB : Port := { signal := exSignalB, direction := Direction.output }

def exTarget : Module :=
  { name := "t", ports := [exPortA, exPortB], signals := [],
    default_parameters := [("p", Option.some (ParamValue.integer 2))], instances := [] }

def exInst : Instance :=
  { name := "i1", moduleRef := "t",
    parameters := [("w", Option.some (ParamValue.integer 3)), ("u", Option.some (ParamValue.string "x"))],
    connections := [("b", Connection.sig exSignalB), ("a", Connection.sig exSignal)] }

def exInstMissing : Instance :=
  { name := "i2", moduleRef := "t",
    parameters := [],
    connections := [("a", Connection.sig exSignal)] }

def exState : NetlisterState :=
  { indent := 0, dest := [], module_names := [], pmodules := [("t", exTarget)] }

def exStateDup : NetlisterState :=
  { indent := 0, dest := [], module_names := ["t"], pmodules := [("t", exTarget)] }

def exPortNone : Port := { signal := exSignal, direction := Direction.none }

/-! Theorems.  First, generic lemmas about the helpers. -/

theorem exceptMap_ok_length {α β : Type} (f : α → Except NetlistError β) :
    ∀ (l : List α) (out : List β), exceptMap f l = Except.ok out → out.length = l.length := by
  intro l
  induction l with
  | nil =>
    intro out h
    simp [exceptMap] at h
    simp [h.symm]
  | cons a rest ih =>
    intro out h
    simp only [exceptMap] at h
    cases hfa : f a with
    | error e => rw [hfa] at h; cases h
    | ok b =>
      rw [hfa] at h
      cases hrest : exceptMap f rest with
      | error e => rw [hrest] at h; cases h
      | ok bs =>
        rw [hrest] at h
        cases h
        simp [ih bs hrest]

theorem exceptMap_ok_mem {α β : Type} (f : α → Except NetlistError β) :
    ∀ (l : List α) (out : List β), exceptMap f l = Except.ok out →
      ∀ b ∈ out, ∃ a ∈ l, f a = Except.ok b := by
  intro l
  induction l with
  | nil =>
    intro out h
    simp [exceptMap] at h
    intro b hb
    simp [h] at hb
  | cons a rest ih =>
    intro out h
    simp only [exceptMap] at h
    cases hfa : f a with
    | error e => rw [hfa] at h; cases h
    | ok b =>
      rw [hfa] at h
      cases hrest : exceptMap f rest with
      | error e => rw [hrest] at h; cases h
      | ok bs =>
        rw [hrest] at h
        cases h
        intro c hc
        rcases List.mem_cons.mp hc with hc | hc
        · exact ⟨a, List.mem_cons_self a rest, by rw [hfa, hc]⟩
        · rcases ih bs hrest c hc with ⟨x, hx, hfx⟩
          exact ⟨x, List.mem_cons_of_mem a hx, hfx⟩

theorem optionMap_some_length {α β : Type} (f : α → Option β) :
    ∀ (l : List α) (out : List β), optionMap f l = Option.some out → out.length = l.length := by
  intro l
  induction l with
  | nil =>
    intro out h
    simp [optionMap] at h
    simp [h.symm]
  | cons a rest ih =>
    intro out h
    simp only [optionMap] at h
    cases hfa : f a with
    | none => rw [hfa] at h; cases h
    | some b =>
      rw [hfa] at h
      cases hrest : optionMap f rest with
      | none => rw [hrest] at h; cases h
      | some bs =>
        rw [hrest] at h
        cases h
        simp [ih bs hrest]

theorem optionMap_some_get {α β : Type} (f : α → Option β) :
    ∀ (l : List α) (out : List β), optionMap f l = Option.some out →
      ∀ i : Nat, out[i]? = (l[i]?).bind f := by
  intro l
  induction l with
  | nil =>
    intro out h
    simp [optionMap] at h
    intro i
    simp [h]
  | cons a rest ih =>
    intro out h
    simp only [optionMap] at h
    cases hfa : f a with
    | none => rw [hfa] at h; cases h
    | some b =>
      rw [hfa] at h
      cases hrest : optionMap f rest with
      | none => rw [hrest] at h; cases h
      | some bs =>
        rw [hrest] at h
        cases h
        intro i
        cases i with
        | zero => simp [hfa]
        | succ j => simp [ih bs hrest j]

theorem optionMap_congr {α β : Type} (f g : α → Option β) :
    ∀ (l : List α), (∀ a ∈ l, f a = g a) → optionMap f l = optionMap g l := by
  intro l
  induction l with
  | nil => intro h; rfl
  | cons a rest ih =>
    intro h
    simp only [optionMap]
    rw [h a (List.mem_cons_self a rest), ih (fun x hx => h x (List.mem_cons_of_mem a hx))]

theorem withSeps_length (suffix : String) (es : List String) :
    (withSeps suffix es).length = es.length := by
  induction es with
  | nil => rfl
  | cons e rest ih => simp [withSeps, ih]

theorem withSeps_get_mid (suffix : String) :
    ∀ (es : List String) (i : Nat), i + 1 < es.length →
      (withSeps suffix es)[i]? = Option.some (es.getD i "" ++ "," ++ suffix) := by
  intro es
  induction es with
  | nil => intro i h; simp at h
  | cons e rest ih =>
    intro i h
    cases i with
    | zero =>
      have hne : rest ≠ [] := by
        intro hr
        rw [hr] at h
        simp at h
      simp [withSeps, List.isEmpty_iff, hne]
    | succ j =>
      have hj : j + 1 < rest.length := by
        simp at h
        omega
      simp [withSeps, List.getD, ih j hj]

theorem withSeps_get_last (suffix : String) :
    ∀ (es : List String), es ≠ [] →
      (withSeps suffix es)[es.length - 1]? =
        Option.some (es.getD (es.length - 1) "" ++ "" ++ suffix) := by
  intro es
  induction es with
  | nil => intro h; exact absurd rfl h
  | cons e rest ih =>
    intro _
    by_cases hne : rest = []
    · subst hne; simp [withSeps]
    · have hpos : 0 < rest.length := List.length_pos.mpr hne
      simp only [withSeps, List.isEmpty_iff, hne, if_neg, List.length_cons]
      have h1 : rest.length + 1 - 1 = rest.length - 1 + 1 := by omega
      rw [h1, List.getElem?_cons_succ]
      have h2 : (e :: rest).getD (rest.length - 1 + 1) "" = rest.getD (rest.length - 1) "" := by
        simp [List.getD]
      rw [h2]
      exact ih hne

/-- Every rendered part list is the map of the connection formatter. -/
theorem format_parts_eq_map (parts : List Connection) :
    format_parts parts = parts.map format_connection := by
  induction parts with
  | nil => rfl
  | cons c rest ih => simp [format_parts, ih]

theorem isEmpty_eq_of_length_eq {α β : Type} (xs : List α) (ys : List β)
    (h : xs.length = ys.length) : xs.isEmpty = ys.isEmpty := by
  cases xs <;> cases ys <;> simp_all

theorem isEmpty_append_cons {α : Type} (l : List α) (a : α) (r : List α) :
    (l ++ a :: r).isEmpty = false := by
  cases l <;> rfl

/-- A successful run of the instance parameter-override loop appends exactly
the name=value lines, in order, at the current indent. -/
theorem write_inst_params_ok :
    ∀ (ps : List (String × Option ParamValue)) (st : NetlisterState) (texts : List String),
      exceptMap paramLineText ps = Except.ok texts →
      write_inst_params st ps =
        ({ st with dest := st.dest ++ texts.map (emitLine st.indent) }, Option.none) := by
  intro ps
  induction ps with
  | nil =>
    intro st texts h
    simp [exceptMap] at h
    subst h
    simp [write_inst_params]
  | cons x rest ih =>
    obtain ⟨pname, pparam⟩ := x
    intro st texts h
    simp only [exceptMap] at h
    cases hv : paramLineText (pname, pparam) with
    | error e => rw [hv] at h; cases h
    | ok t =>
      rw [hv] at h
      cases hrest : exceptMap paramLineText rest with
      | error e => rw [hrest] at h; cases h
      | ok ts =>
        rw [hrest] at h
        cases h
        simp only [paramLineText] at hv
        cases hgv : get_param_value pparam with
        | error e => rw [hgv] at hv; cases hv
        | ok pval =>
          rw [hgv] at hv
          simp only [Except.map] at hv
          cases hv
          simp only [write_inst_params, hgv]
          rw [ih (writeln st (pname ++ "=" ++ pval ++ " ")) ts hrest]
          simp [writeln, List.append_assoc]

/-- A fully connected run of the instance connection loop appends exactly
the named bindings in the given port order, every entry but the last with a
trailing comma before its closing space. -/
theorem write_inst_conns_ok (iname : String) (conns : List (String × Connection)) :
    ∀ (names : List String) (st : NetlisterState) (bases : List String),
      optionMap (bindingText conns) names = Option.some bases →
      write_inst_conns iname conns st names =
        ({ st with dest := st.dest ++ (withSeps " " bases).map (emitLine st.indent) }, Option.none) := by
  intro names
  induction names with
  | nil =>
    intro st bases h
    simp [optionMap] at h
    subst h
    simp [write_inst_conns, withSeps]
  | cons pname rest ih =>
    intro st bases h
    simp only [optionMap] at h
    cases hb : bindingText conns pname with
    | none => rw [hb] at h; cases h
    | some base =>
      rw [hb] at h
      cases hrest : optionMap (bindingText conns) rest with
      | none => rw [hrest] at h; cases h
      | some bs =>
        rw [hrest] at h
        cases h
        simp only [bindingText] at hb
        cases hl : List.lookup pname conns with
        | none => rw [hl] at hb; cases hb
        | some pconn =>
          rw [hl] at hb
          simp only [Option.map] at hb
          cases hb
          have hlen := optionMap_some_length (bindingText conns) rest bs hrest
          have hie : rest.isEmpty = bs.isEmpty := isEmpty_eq_of_length_eq rest bs hlen.symm
          simp only [write_inst_conns, hl]
          rw [ih (writeln st ("." ++ pname ++ "(" ++ format_connection pconn ++ ")" ++ (if rest.isEmpty then "" else ",") ++ " ")) bs hrest]
          simp [writeln, withSeps, List.append_assoc, hie]

/-- A run of the instance connection loop that reaches a port with no
connection: every earlier port's binding (each with its comma) has been
written, the error names the missing port and the instance, and no text for
the missing port or any later one is written. -/
theorem write_inst_conns_err (iname missing : String) (conns : List (String × Connection))
    (rest : List String) (hmiss : List.lookup missing conns = Option.none) :
    ∀ (done : List String) (st : NetlisterState) (bases : List String),
      optionMap (bindingText conns) done = Option.some bases →
      write_inst_conns iname conns st (done ++ missing :: rest) =
        ({ st with dest := st.dest ++ bases.map (fun b => emitLine st.indent (b ++ "," ++ " ")) },
         Option.some (NetlistError.unconnectedPort missing iname)) := by
  intro done
  induction done with
  | nil =>
    intro st bases h
    simp [optionMap] at h
    subst h
    simp [write_inst_conns, hmiss]
  | cons pname dtail ih =>
    intro st bases h
    simp only [optionMap] at h
    cases hb : bindingText conns pname with
    | none => rw [hb] at h; cases h
    | some base =>
      rw [hb] at h
      cases hrest : optionMap (bindingText conns) dtail with
      | none => rw [hrest] at h; cases h
      | some bs =>
        rw [hrest] at h
        cases h
        simp only [bindingText] at hb
        cases hl : List.lookup pname conns with
        | none => rw [hl] at hb; cases hb
        | some pconn =>
          rw [hl] at hb
          simp only [Option.map] at hb
          cases hb
          have hemp : (dtail ++ missing :: rest).isEmpty = false :=
            isEmpty_append_cons dtail missing rest
          have hstep := ih (writeln st ("." ++ pname ++ "(" ++ format_connection pconn ++ ")" ++ "," ++ " ")) bs hrest
          simp only [List.cons_append, write_inst_conns, hl, List.append_eq, hemp,
                     Bool.false_eq_true, if_false]
          rw [hstep]
          simp [writeln, List.append_assoc]

/-- A successful run of the module default-parameter loop appends exactly
the parameter declarations, in order, every entry but the last with a
trailing comma. -/
theorem write_module_params_ok :
    ∀ (ps : List (String × Option ParamValue)) (st : NetlisterState) (decls : List String),
      exceptMap (fun x => format_param_decl x.1 x.2) ps = Except.ok decls →
      write_module_params st ps =
        ({ st with dest := st.dest ++ (withSeps "" decls).map (emitLine st.indent) }, Option.none) := by
  intro ps
  induction ps with
  | nil =>
    intro st decls h
    simp [exceptMap] at h
    subst h
    simp [write_module_params, withSeps]
  | cons x rest ih =>
    obtain ⟨name, pparam⟩ := x
    intro st decls h
    simp only [exceptMap] at h
    cases hd : format_param_decl name pparam with
    | error e => rw [hd] at h; cases h
    | ok decl =>
      rw [hd] at h
      cases hrest : exceptMap (fun x => format_param_decl x.1 x.2) rest with
      | error e => rw [hrest] at h; cases h
      | ok ds =>
        rw [hrest] at h
        cases h
        have hlen := exceptMap_ok_length (fun x => format_param_decl x.1 x.2) rest ds hrest
        have hie : rest.isEmpty = ds.isEmpty := isEmpty_eq_of_length_eq rest ds hlen.symm
        simp only [write_module_params, hd]
        rw [ih (writeln st (decl ++ (if rest.isEmpty then "" else ","))) ds hrest]
        simp [writeln, withSeps, List.append_assoc, hie]

/-- A successful run of the module port loop appends exactly the port
declarations, in order, every entry but the last with a trailing comma. -/
theorem write_module_ports_ok :
    ∀ (ports : List Port) (st : NetlisterState) (decls : List String),
      exceptMap format_port_decl ports = Except.ok decls →
      write_module_ports st ports =
        ({ st with dest := st.dest ++ (withSeps "" decls).map (emitLine st.indent) }, Option.none) := by
  intro ports
  induction ports with
  | nil =>
    intro st decls h
    simp [exceptMap] at h
    subst h
    simp [write_module_ports, withSeps]
  | cons pport rest ih =>
    intro st decls h
    simp only [exceptMap] at h
    cases hd : format_port_decl pport with
    | error e => rw [hd] at h; cases h
    | ok decl =>
      rw [hd] at h
      cases hrest : exceptMap format_port_decl rest with
      | error e => rw [hrest] at h; cases h
      | ok ds =>
        rw [hrest] at h
        cases h
        have hlen := exceptMap_ok_length format_port_decl rest ds hrest
        have hie : rest.isEmpty = ds.isEmpty := isEmpty_eq_of_length_eq rest ds hlen.symm
        simp only [write_module_ports, hd]
        rw [ih (writeln st (decl ++ (if rest.isEmpty then "" else ","))) ds hrest]
        simp [writeln, withSeps, List.append_assoc, hie]

/-- The instance parameter-value block, run on overrides that all render:
the no-parameters marker, or the wrapped one-per-line overrides. -/
theorem inst_params_block_ok (ps : List (String × Option ParamValue)) (texts : List String)
    (h : exceptMap paramLineText ps = Except.ok texts) :
    ∀ st : NetlisterState,
      inst_params_block st ps =
        ({ st with dest := st.dest ++ instParamLines st.indent ps texts }, Option.none) := by
  intro st
  by_cases hps : ps = []
  · subst hps
    simp [exceptMap] at h
    subst h
    simp [inst_params_block, instParamLines, writeln]
  · have hemp : ps.isEmpty = false := by simp [List.isEmpty_iff, hps]
    simp only [inst_params_block, hemp, Bool.false_eq_true, if_false]
    rw [write_inst_params_ok ps _ texts h]
    simp [writeln, instParamLines, hemp, List.append_assoc]

/-- The instance connection block on a target with ports, when every
declared port has a connection. -/
theorem inst_conns_block_ok (iname : String) (conns : List (String × Connection))
    (module : Module) (bases : List String)
    (hne : module.ports ≠ [])
    (h : optionMap (bindingText conns) (portNames module) = Option.some bases) :
    ∀ st : NetlisterState,
      inst_conns_block st iname conns module =
        ({ st with dest := st.dest ++ [emitLine st.indent "( "]
              ++ (withSeps " " bases).map (emitLine (st.indent + 1))
              ++ [emitLine st.indent "); "] }, Option.none) := by
  intro st
  simp only [portNames] at h
  have hemp : module.ports.isEmpty = false := by simp [List.isEmpty_iff, hne]
  simp only [inst_conns_block, hemp, Bool.false_eq_true, if_false]
  rw [write_inst_conns_ok iname conns (module.ports.map (fun p => p.signal.name)) _ bases h]
  simp [writeln, List.append_assoc]

/-- The instance connection block when some declared port, preceded by
fully connected ones, has no connection: the earlier bindings are written,
the error names port and instance, nothing later is written, and the
indent is left deepened as by the escaping exception. -/
theorem inst_conns_block_err (iname missing : String) (conns : List (String × Connection))
    (module : Module) (done rest : List String) (bases : List String)
    (hsplit : portNames module = done ++ missing :: rest)
    (hdone : optionMap (bindingText conns) done = Option.some bases)
    (hmiss : List.lookup missing conns = Option.none) :
    ∀ st : NetlisterState,
      inst_conns_block st iname conns module =
        ({ st with indent := st.indent + 1,
                   dest := st.dest ++ [emitLine st.indent "( "]
                     ++ bases.map (fun b => emitLine (st.indent + 1) (b ++ "," ++ " ")) },
         Option.some (NetlistError.unconnectedPort missing iname)) := by
  intro st
  have hmap : module.ports.map (fun p => p.signal.name) = done ++ missing :: rest := hsplit
  have hne : module.ports ≠ [] := by
    intro hp
    rw [hp] at hmap
    simp at hmap
  have hemp : module.ports.isEmpty = false := by simp [List.isEmpty_iff, hne]
  simp only [inst_conns_block, hemp, Bool.false_eq_true, if_false, hmap]
  rw [write_inst_conns_err iname missing conns rest hmiss done _ bases hdone]
  simp [writeln, List.append_assoc]

/-- A fully successful write_instance: target resolved, every override
rendered, every declared port connected.  The emitted lines are the
target's canonical name, the parameter-value block, the instance name, the
open marker, the bindings in declared port order, the close marker, and the
closing blank line. -/
theorem write_instance_ok (st : NetlisterState) (pinst : Instance) (target : Module)
    (tname : String) (ptexts bases : List String)
    (hres : resolve_reference st pinst.moduleRef = Except.ok (target, tname))
    (hps : exceptMap paramLineText pinst.parameters = Except.ok ptexts)
    (hne : target.ports ≠ [])
    (hconns : optionMap (bindingText pinst.connections) (portNames target) = Option.some bases) :
    write_instance st pinst =
      ({ st with dest := st.dest ++ [emitLine st.indent tname]
            ++ instParamLines st.indent pinst.parameters ptexts
            ++ [emitLine st.indent pinst.name, emitLine st.indent "( "]
            ++ (withSeps " " bases).map (emitLine (st.indent + 1))
            ++ [emitLine st.indent "); ", emitLine st.indent ""] }, Option.none) := by
  simp only [write_instance, hres,
             inst_params_block_ok pinst.parameters ptexts hps,
             inst_conns_block_ok pinst.name pinst.connections target bases hne hconns]
  simp [writeln, List.append_assoc]

/-- write_instance aborted inside the connection block at the first
unconnected port: everything up to the open marker and the earlier
bindings is written, then the UnconnectedPort error carrying that port and
the instance's name escapes, and no further text is emitted. -/
theorem write_instance_err (st : NetlisterState) (pinst : Instance) (target : Module)
    (tname missing : String) (ptexts : List String) (done rest : List String) (bases : List String)
    (hres : resolve_reference st pinst.moduleRef = Except.ok (target, tname))
    (hps : exceptMap paramLineText pinst.parameters = Except.ok ptexts)
    (hsplit : portNames target = done ++ missing :: rest)
    (hdone : optionMap (bindingText pinst.connections) done = Option.some bases)
    (hmiss : List.lookup missing pinst.connections = Option.none) :
    write_instance st pinst =
      ({ st with indent := st.indent + 1,
                 dest := st.dest ++ [emitLine st.indent tname]
                   ++ instParamLines st.indent pinst.parameters ptexts
                   ++ [emitLine st.indent pinst.name, emitLine st.indent "( "]
                   ++ bases.map (fun b => emitLine (st.indent + 1) (b ++ "," ++ " ")) },
       Option.some (NetlistError.unconnectedPort missing pinst.name)) := by
  simp only [write_instance, hres,
             inst_params_block_ok pinst.parameters ptexts hps,
             inst_conns_block_err pinst.name missing pinst.connections target done rest bases
               hsplit hdone hmiss]
  simp [writeln, List.append_assoc]

/-- C1: for every Parameter whose underlying value is present but of none of
the three recognized kinds (integer, floating-point, string), formatting its
parameter declaration fails with an UnsupportedParameterType error rather
than returning a declaration string. -/
theorem claim_C1_unsupported_param_decl (name : String) (pv : ParamValue)
    (hint : ∀ i, pv ≠ ParamValue.integer i)
    (hdbl : ∀ s, pv ≠ ParamValue.double s)
    (hstr : ∀ s, pv ≠ ParamValue.string s) :
    format_param_decl name (Option.some pv) =
      Except.error NetlistError.unsupportedParameterType := by
  cases pv with
  | integer i => exact absurd rfl (hint i)
  | double s => exact absurd rfl (hdbl s)
  | string s => exact absurd rfl (hstr s)
  | bool b => rfl

/-- C1 witness: a boolean-valued parameter. -/
theorem claim_C1_witness :
    (∀ i, ParamValue.bool true ≠ ParamValue.integer i) ∧
    (∀ s, ParamValue.bool true ≠ ParamValue.double s) ∧
    (∀ s, ParamValue.bool true ≠ ParamValue.string s) ∧
    format_param_decl "p" (Option.some (ParamValue.bool true)) =
      Except.error NetlistError.unsupportedParameterType :=
  ⟨fun _ h => ParamValue.noConfusion h,
   fun _ h => ParamValue.noConfusion h,
   fun _ h => ParamValue.noConfusion h,
   claim_C1_unsupported_param_decl "p" (ParamValue.bool true)
     (fun _ h => ParamValue.noConfusion h)
     (fun _ h => ParamValue.noConfusion h)
     (fun _ h => ParamValue.noConfusion h)⟩

/-- C2: a module whose canonical emission name was already registered in
this pass makes write_module_definition fail with a DuplicateDefinition
error naming the colliding identifier, with the state unchanged: no text
line has been emitted for that module and nothing was registered. -/
theorem claim_C2_duplicate_definition (st : NetlisterState) (module : Module)
    (hdup : get_module_name module ∈ st.module_names) :
    write_module_definition st module =
      (st, Option.some (NetlistError.duplicateDefinition (get_module_name module))) := by
  unfold write_module_definition
  simp [hdup]

/-- C2 witness: re-emitting a module whose name is already registered. -/
theorem claim_C2_witness :
    get_module_name exTarget ∈ exStateDup.module_names ∧
    write_module_definition exStateDup exTarget =
      (exStateDup, Option.some (NetlistError.duplicateDefinition (get_module_name exTarget))) :=
  ⟨by decide, claim_C2_duplicate_definition exStateDup exTarget (by decide)⟩

theorem string_data_append (s t : String) : (s ++ t).data = s.data ++ t.data := by
  cases s; cases t; rfl

theorem lastChar_append (s t : String) (h : t.data ≠ []) : lastChar (s ++ t) = lastChar t := by
  unfold lastChar
  rw [string_data_append]
  exact List.getLast?_append_of_ne_nil s.data h

/-- The connection loop only ever appends to the destination. -/
theorem write_inst_conns_mono (iname : String) (conns : List (String × Connection)) :
    ∀ (names : List String) (st : NetlisterState),
      ∃ L, ((write_inst_conns iname conns st names).1).dest = st.dest ++ L := by
  intro names
  induction names with
  | nil => intro st; exact ⟨[], by simp [write_inst_conns]⟩
  | cons pname rest ih =>
    intro st
    cases hl : List.lookup pname conns with
    | none => exact ⟨[], by simp [write_inst_conns, hl]⟩
    | some pconn =>
      obtain ⟨L, hL⟩ := ih (writeln st ("." ++ pname ++ "(" ++ format_connection pconn ++ ")" ++ (if rest.isEmpty then "" else ",") ++ " "))
      refine ⟨emitLine st.indent ("." ++ pname ++ "(" ++ format_connection pconn ++ ")" ++ (if rest.isEmpty then "" else ",") ++ " ") :: L, ?_⟩
      simp only [write_inst_conns, hl]
      rw [hL]
      simp [writeln]

/-- The instance connection block only ever appends to the destination. -/
theorem inst_conns_block_mono (iname : String) (conns : List (String × Connection))
    (module : Module) (st : NetlisterState) :
    ∃ L, ((inst_conns_block st iname conns module).1).dest = st.dest ++ L := by
  unfold inst_conns_block
  split
  · exact ⟨[emitLine st.indent "// No ports "], by simp [writeln]⟩
  · dsimp only
    split
    next st2 e heq =>
      obtain ⟨L, hL⟩ := write_inst_conns_mono iname conns (module.ports.map (fun p => p.signal.name))
        { writeln st "( " with indent := (writeln st "( ").indent + 1 }
      rw [heq] at hL
      refine ⟨emitLine st.indent "( " :: L, ?_⟩
      simp [writeln] at hL ⊢
      simp [hL]
    next st2 heq =>
      obtain ⟨L, hL⟩ := write_inst_conns_mono iname conns (module.ports.map (fun p => p.signal.name))
        { writeln st "( " with indent := (writeln st "( ").indent + 1 }
      rw [heq] at hL
      refine ⟨emitLine st.indent "( " :: (L ++ [emitLine (st2.indent - 1) "); "]), ?_⟩
      simp [writeln] at hL ⊢
      simp [hL]

/-- Whatever happens after it, a write_instance whose target resolves and
whose overrides all render flushes the target name and the whole
parameter-value block to the destination before the rest. -/
theorem write_instance_flushes_params (st : NetlisterState) (pinst : Instance) (target : Module)
    (tname : String) (texts : List String)
    (hres : resolve_reference st pinst.moduleRef = Except.ok (target, tname))
    (hps : exceptMap paramLineText pinst.parameters = Except.ok texts) :
    ∃ rest, ((write_instance st pinst).1).dest =
      st.dest ++ [emitLine st.indent tname]
        ++ instParamLines st.indent pinst.parameters texts ++ rest := by
  unfold write_instance
  rw [hres]
  dsimp only
  rw [inst_params_block_ok pinst.parameters texts hps (writeln st tname)]
  dsimp only
  split
  next st2 e heq =>
    obtain ⟨L, hL⟩ := inst_conns_block_mono pinst.name pinst.connections target
      (writeln { writeln st tname with dest := (writeln st tname).dest ++ instParamLines (writeln st tname).indent pinst.parameters texts } pinst.name)
    rw [heq] at hL
    refine ⟨emitLine st.indent pinst.name :: L, ?_⟩
    simp [writeln] at hL ⊢
    simp [hL]
  next st2 heq =>
    obtain ⟨L, hL⟩ := inst_conns_block_mono pinst.name pinst.connections target
      (writeln { writeln st tname with dest := (writeln st tname).dest ++ instParamLines (writeln st tname).indent pinst.parameters texts } pinst.name)
    rw [heq] at hL
    refine ⟨emitLine st.indent pinst.name :: (L ++ [emitLine st2.indent ""]), ?_⟩
    simp [writeln] at hL ⊢
    simp [hL]

/-- C10: an instance with one or more parameter overrides, all renderable,
has its overrides written by write_instance one name=value line per
mapping entry, in the mapping's insertion order, wrapped by the block
markers; every override line ends in a space and none - the non-final ones
included - carries a trailing comma separator, unlike the
port-declaration and connection blocks. -/
theorem claim_C10_override_block (st : NetlisterState) (pinst : Instance) (target : Module)
    (tname : String) (texts : List String)
    (hres : resolve_reference st pinst.moduleRef = Except.ok (target, tname))
    (hne : pinst.parameters ≠ [])
    (hps : exceptMap paramLineText pinst.parameters = Except.ok texts) :
    (∃ rest, ((write_instance st pinst).1).dest =
        st.dest ++ [emitLine st.indent tname, emitLine st.indent "#( "]
          ++ texts.map (emitLine (st.indent + 1))
          ++ [emitLine st.indent ") "] ++ rest) ∧
    texts.length = pinst.parameters.length ∧
    (∀ t ∈ texts,
      (∃ x ∈ pinst.parameters, ∃ pval, get_param_value x.2 = Except.ok pval ∧
          t = x.1 ++ "=" ++ pval ++ " ") ∧
      lastChar t = lastChar " " ∧ lastChar t ≠ lastChar ",") := by
  refine ⟨?_, exceptMap_ok_length _ _ texts hps, ?_⟩
  · obtain ⟨rest, hrest⟩ := write_instance_flushes_params st pinst target tname texts hres hps
    refine ⟨rest, ?_⟩
    rw [hrest]
    have hemp : pinst.parameters.isEmpty = false := by simp [List.isEmpty_iff, hne]
    simp [instParamLines, hemp, List.append_assoc]
  · intro t ht
    obtain ⟨x, hx, hfx⟩ := exceptMap_ok_mem _ _ texts hps t ht
    simp only [paramLineText] at hfx
    cases hgv : get_param_value x.2 with
    | error e => rw [hgv] at hfx; cases hfx
    | ok pval =>
      rw [hgv] at hfx
      simp only [Except.map] at hfx
      cases hfx
      refine ⟨⟨x, hx, pval, hgv, rfl⟩, ?_, ?_⟩
      · exact lastChar_append _ " " (by decide)
      · rw [lastChar_append _ " " (by decide)]
        decide

/-- C10 witness: an instance with two overrides; both lines end in a
space, neither ends in a comma. -/
theorem claim_C10_witness :
    resolve_reference exState exInst.moduleRef = Except.ok (exTarget, "t") ∧
    exInst.parameters ≠ [] ∧
    exceptMap paramLineText exInst.parameters = Except.ok ["w=3 ", "u=x "] ∧
    ((∃ rest, ((write_instance exState exInst).1).dest =
        exState.dest ++ [emitLine exState.indent "t", emitLine exState.indent "#( "]
          ++ ["w=3 ", "u=x "].map (emitLine (exState.indent + 1))
          ++ [emitLine exState.indent ") "] ++ rest) ∧
     (["w=3 ", "u=x "] : List String).length = exInst.parameters.length ∧
     (∀ t ∈ (["w=3 ", "u=x "] : List String),
       (∃ x ∈ exInst.parameters, ∃ pval, get_param_value x.2 = Except.ok pval ∧
           t = x.1 ++ "=" ++ pval ++ " ") ∧
       lastChar t = lastChar " " ∧ lastChar t ≠ lastChar ",")) :=
  ⟨rfl, by decide, rfl,
   claim_C10_override_block exState exInst exTarget "t" ["w=3 ", "u=x "] rfl (by decide) rfl⟩

/-- The module default-parameter block on a module declaring parameters
that all format: open marker, declarations one per line with the comma
discipline, close marker. -/
theorem module_params_block_ok (ps : List (String × Option ParamValue)) (decls : List String)
    (hne : ps ≠ [])
    (h : exceptMap (fun x => format_param_decl x.1 x.2) ps = Except.ok decls) :
    ∀ st : NetlisterState,
      module_params_block st ps =
        ({ st with dest := st.dest ++ [emitLine st.indent "#( "]
              ++ (withSeps "" decls).map (emitLine (st.indent + 1))
              ++ [emitLine st.indent ") "] }, Option.none) := by
  intro st
  have hemp : ps.isEmpty = false := by simp [List.isEmpty_iff, hne]
  simp only [module_params_block, hemp, Bool.false_eq_true, if_false]
  rw [write_module_params_ok ps _ decls h]
  simp [writeln, List.append_assoc]

/-- The module port block on a module declaring ports that all format:
open marker, declarations one per line with the comma discipline, close
marker. -/
theorem module_ports_block_ok (ports : List Port) (decls : List String)
    (hne : ports ≠ [])
    (h : exceptMap format_port_decl ports = Except.ok decls) :
    ∀ st : NetlisterState,
      module_ports_block st ports =
        ({ st with dest := st.dest ++ [emitLine st.indent "( "]
              ++ (withSeps "" decls).map (emitLine (st.indent + 1))
              ++ [emitLine st.indent "); "] }, Option.none) := by
  intro st
  have hemp : ports.isEmpty = false := by simp [List.isEmpty_iff, hne]
  simp only [module_ports_block, hemp, Bool.false_eq_true, if_false]
  rw [write_module_ports_ok ports _ decls h]
  simp [writeln, List.append_assoc]

/-- C3: the separator law of the emitted blocks.  First, the law itself:
a block of N entries built by the loops has exactly N lines, the first N-1
carrying a trailing comma at the separator position and the last carrying
none.  Then, each of the three block emitters - the module port block, the
module default-parameter block, and the instance connection block - emits
exactly its N formatted entries in that shape, one per line between the
open and close markers. -/
theorem claim_C3_separator_law :
    (∀ (suffix : String) (es : List String),
        (withSeps suffix es).length = es.length ∧
        (∀ i : Nat, i + 1 < es.length →
          (withSeps suffix es)[i]? = Option.some (es.getD i "" ++ "," ++ suffix)) ∧
        (es ≠ [] →
          (withSeps suffix es)[es.length - 1]? =
            Option.some (es.getD (es.length - 1) "" ++ "" ++ suffix))) ∧
    (∀ (st : NetlisterState) (ports : List Port) (decls : List String),
        ports ≠ [] →
        exceptMap format_port_decl ports = Except.ok decls →
        decls.length = ports.length ∧
        module_ports_block st ports =
          ({ st with dest := st.dest ++ [emitLine st.indent "( "]
                ++ (withSeps "" decls).map (emitLine (st.indent + 1))
                ++ [emitLine st.indent "); "] }, Option.none)) ∧
    (∀ (st : NetlisterState) (ps : List (String × Option ParamValue)) (decls : List String),
        ps ≠ [] →
        exceptMap (fun x => format_param_decl x.1 x.2) ps = Except.ok decls →
        decls.length = ps.length ∧
        module_params_block st ps =
          ({ st with dest := st.dest ++ [emitLine st.indent "#( "]
                ++ (withSeps "" decls).map (emitLine (st.indent + 1))
                ++ [emitLine st.indent ") "] }, Option.none)) ∧
    (∀ (st : NetlisterState) (iname : String) (conns : List (String × Connection))
        (target : Module) (bases : List String),
        target.ports ≠ [] →
        optionMap (bindingText conns) (portNames target) = Option.some bases →
        bases.length = target.ports.length ∧
        inst_conns_block st iname conns target =
          ({ st with dest := st.dest ++ [emitLine st.indent "( "]
                ++ (withSeps " " bases).map (emitLine (st.indent + 1))
                ++ [emitLine st.indent "); "] }, Option.none)) := by
  refine ⟨fun suffix es => ⟨withSeps_length suffix es, withSeps_get_mid suffix es, withSeps_get_last suffix es⟩,
          fun st ports decls hne h => ⟨exceptMap_ok_length _ ports decls h, module_ports_block_ok ports decls hne h st⟩,
          fun st ps decls hne h => ⟨exceptMap_ok_length _ ps decls h, module_params_block_ok ps decls hne h st⟩,
          fun st iname conns target bases hne h => ⟨?_, inst_conns_block_ok iname conns target bases hne h st⟩⟩
  have := optionMap_some_length _ (portNames target) bases h
  simpa [portNames] using this

/-- C3 witness: the port, default-parameter, and connection blocks of the
two-port example target, each with two entries, the first with a comma and
the last without. -/
theorem claim_C3_witness :
    ((withSeps "" ["input wire a", "output wire [3:0] b"]).length = 2 ∧
     (withSeps "" ["input wire a", "output wire [3:0] b"])[0]? =
       Option.some ("input wire a" ++ "," ++ "") ∧
     (withSeps "" ["input wire a", "output wire [3:0] b"])[1]? =
       Option.some ("output wire [3:0] b" ++ "" ++ "")) ∧
    (exTarget.ports ≠ [] ∧
     exceptMap format_port_decl exTarget.ports =
       Except.ok ["input wire a", "output wire [3:0] b"] ∧
     ["input wire a", "output wire [3:0] b"].length = exTarget.ports.length ∧
     module_ports_block exState exTarget.ports =
       ({ exState with dest := exState.dest ++ [emitLine exState.indent "( "]
             ++ (withSeps "" ["input wire a", "output wire [3:0] b"]).map (emitLine (exState.indent + 1))
             ++ [emitLine exState.indent "); "] }, Option.none)) ∧
    (exTarget.default_parameters ≠ [] ∧
     exceptMap (fun x => format_param_decl x.1 x.2) exTarget.default_parameters =
       Except.ok ["parameter p = 2"] ∧
     ["parameter p = 2"].length = exTarget.default_parameters.length ∧
     module_params_block exState exTarget.default_parameters =
       ({ exState with dest := exState.dest ++ [emitLine exState.indent "#( "]
             ++ (withSeps "" ["parameter p = 2"]).map (emitLine (exState.indent + 1))
             ++ [emitLine exState.indent ") "] }, Option.none)) ∧
    (exTarget.ports ≠ [] ∧
     optionMap (bindingText exInst.connections) (portNames exTarget) =
       Option.some [".a(a)", ".b(b)"] ∧
     [".a(a)", ".b(b)"].length = exTarget.ports.length ∧
     inst_conns_block exState exInst.name exInst.connections exTarget =
       ({ exState with dest := exState.dest ++ [emitLine exState.indent "( "]
             ++ (withSeps " " [".a(a)", ".b(b)"]).map (emitLine (exState.indent + 1))
             ++ [emitLine exState.indent "); "] }, Option.none)) := by
  refine ⟨?_, ?_, ?_, ?_⟩
  · have h := claim_C3_separator_law.1 "" ["input wire a", "output wire [3:0] b"]
    exact ⟨h.1, h.2.1 0 (by norm_num), by simpa using h.2.2 (by simp)⟩
  · have h := claim_C3_separator_law.2.1 exState exTarget.ports
      ["input wire a", "output wire [3:0] b"] (by decide) rfl
    exact ⟨by decide, rfl, h.1, h.2⟩
  · have h := claim_C3_separator_law.2.2.1 exState exTarget.default_parameters
      ["parameter p = 2"] (by decide) rfl
    exact ⟨by decide, rfl, h.1, h.2⟩
  · have h := claim_C3_separator_law.2.2.2 exState exInst.name exInst.connections exTarget
      [".a(a)", ".b(b)"] (by decide) rfl
    exact ⟨by decide, rfl, h.1, h.2⟩

/-- C4: when the resolved target has ports and the instance's connection
mapping covers all of them, write_instance emits the connection block's
named bindings exactly in the target's declared port order: the i-th
binding is the lookup of the i-th declared port name, and replacing the
connection mapping by any mapping with the same lookups on the declared
port names (any reordering of its entries, in particular) leaves the
entire output of write_instance unchanged. -/
theorem claim_C4_target_port_order (st : NetlisterState) (pinst : Instance) (target : Module)
    (tname : String) (ptexts bases : List String)
    (hres : resolve_reference st pinst.moduleRef = Except.ok (target, tname))
    (hps : exceptMap paramLineText pinst.parameters = Except.ok ptexts)
    (hne : target.ports ≠ [])
    (hconns : optionMap (bindingText pinst.connections) (portNames target) = Option.some bases) :
    (write_instance st pinst =
      ({ st with dest := st.dest ++ [emitLine st.indent tname]
            ++ instParamLines st.indent pinst.parameters ptexts
            ++ [emitLine st.indent pinst.name, emitLine st.indent "( "]
            ++ (withSeps " " bases).map (emitLine (st.indent + 1))
            ++ [emitLine st.indent "); ", emitLine st.indent ""] }, Option.none)) ∧
    bases.length = (portNames target).length ∧
    (∀ i : Nat, bases[i]? = ((portNames target)[i]?).bind (bindingText pinst.connections)) ∧
    (∀ conns2 : List (String × Connection),
      (∀ n ∈ portNames target, List.lookup n conns2 = List.lookup n pinst.connections) →
      write_instance st { pinst with connections := conns2 } = write_instance st pinst) := by
  refine ⟨write_instance_ok st pinst target tname ptexts bases hres hps hne hconns,
          optionMap_some_length _ _ bases hconns,
          optionMap_some_get _ _ bases hconns,
          ?_⟩
  intro conns2 hsame
  have hbt : ∀ n ∈ portNames target, bindingText conns2 n = bindingText pinst.connections n := by
    intro n hn
    simp [bindingText, hsame n hn]
  have hconns2 : optionMap (bindingText conns2) (portNames target) = Option.some bases := by
    rw [optionMap_congr _ _ _ hbt]
    exact hconns
  have h2 := write_instance_ok st { pinst with connections := conns2 } target tname ptexts bases
    hres hps hne hconns2
  rw [h2, write_instance_ok st pinst target tname ptexts bases hres hps hne hconns]

/-- C4 witness: an instance whose connection mapping is given in the order
b, a against a target declaring ports a, b; the bindings come out in the
target's order a, b. -/
theorem claim_C4_witness :
    resolve_reference exState exInst.moduleRef = Except.ok (exTarget, "t") ∧
    exceptMap paramLineText exInst.parameters = Except.ok ["w=3 ", "u=x "] ∧
    exTarget.ports ≠ [] ∧
    optionMap (bindingText exInst.connections) (portNames exTarget) =
      Option.some [".a(a)", ".b(b)"] ∧
    ((write_instance exState exInst =
      ({ exState with dest := exState.dest ++ [emitLine exState.indent "t"]
            ++ instParamLines exState.indent exInst.parameters ["w=3 ", "u=x "]
            ++ [emitLine exState.indent exInst.name, emitLine exState.indent "( "]
            ++ (withSeps " " [".a(a)", ".b(b)"]).map (emitLine (exState.indent + 1))
            ++ [emitLine exState.indent "); ", emitLine exState.indent ""] }, Option.none)) ∧
    [".a(a)", ".b(b)"].length = (portNames exTarget).length ∧
    (∀ i : Nat, [".a(a)", ".b(b)"][i]? =
      ((portNames exTarget)[i]?).bind (bindingText exInst.connections)) ∧
    (∀ conns2 : List (String × Connection),
      (∀ n ∈ portNames exTarget, List.lookup n conns2 = List.lookup n exInst.connections) →
      write_instance exState { exInst with connections := conns2 } =
        write_instance exState exInst)) :=
  ⟨rfl, rfl, by decide, rfl,
   claim_C4_target_port_order exState exInst exTarget "t" ["w=3 ", "u=x "] [".a(a)", ".b(b)"]
     rfl rfl (by decide) rfl⟩

/-- C5: when the instance's connection mapping lacks an entry for a
declared port of the resolved target, write_instance raises an
UnconnectedPort error naming that port and that instance; the bindings of
the earlier, connected ports are the last thing written - no binding text
for the missing port or any later port is emitted after the failure
point. -/
theorem claim_C5_unconnected_port (st : NetlisterState) (pinst : Instance) (target : Module)
    (tname missing : String) (ptexts : List String) (done rest : List String) (bases : List String)
    (hres : resolve_reference st pinst.moduleRef = Except.ok (target, tname))
    (hps : exceptMap paramLineText pinst.parameters = Except.ok ptexts)
    (hsplit : portNames target = done ++ missing :: rest)
    (hdone : optionMap (bindingText pinst.connections) done = Option.some bases)
    (hmiss : List.lookup missing pinst.connections = Option.none) :
    write_instance st pinst =
      ({ st with indent := st.indent + 1,
                 dest := st.dest ++ [emitLine st.indent tname]
                   ++ instParamLines st.indent pinst.parameters ptexts
                   ++ [emitLine st.indent pinst.name, emitLine st.indent "( "]
                   ++ bases.map (fun b => emitLine (st.indent + 1) (b ++ "," ++ " ")) },
       Option.some (NetlistError.unconnectedPort missing pinst.name)) :=
  write_instance_err st pinst target tname missing ptexts done rest bases
    hres hps hsplit hdone hmiss

/-- C5 witness: an instance connecting only port a of a target declaring
ports a, b. -/
theorem claim_C5_witness :
    resolve_reference exState exInstMissing.moduleRef = Except.ok (exTarget, "t") ∧
    exceptMap paramLineText exInstMissing.parameters = Except.ok [] ∧
    portNames exTarget = ["a"] ++ "b" :: [] ∧
    optionMap (bindingText exInstMissing.connections) ["a"] = Option.some [".a(a)"] ∧
    List.lookup "b" exInstMissing.connections = Option.none ∧
    write_instance exState exInstMissing =
      ({ exState with indent := exState.indent + 1,
                      dest := exState.dest ++ [emitLine exState.indent "t"]
                        ++ instParamLines exState.indent exInstMissing.parameters []
                        ++ [emitLine exState.indent exInstMissing.name, emitLine exState.indent "( "]
                        ++ [".a(a)"].map (fun b => emitLine (exState.indent + 1) (b ++ "," ++ " ")) },
       Option.some (NetlistError.unconnectedPort "b" exInstMissing.name)) :=
  ⟨rfl, rfl, rfl, rfl, rfl,
   claim_C5_unconnected_port exState exInstMissing exTarget "t" "b" [] ["a"] [] [".a(a)"]
     rfl rfl rfl rfl rfl⟩

/-- C6: a Slice with equal indices renders as a single-bit index
expression; when the high index exceeds the low one - and likewise on an
inverted pair, since no validity check is performed - it renders as a
high:low range expression. -/
theorem claim_C6_slice_rendering (sname : String) (top bot : Int) :
    (top = bot →
      format_signal_slice { signal := sname, top := top, bot := bot } =
        sname ++ "[" ++ toString top ++ "]") ∧
    (bot < top →
      format_signal_slice { signal := sname, top := top, bot := bot } =
        sname ++ "[" ++ toString top ++ ":" ++ toString bot ++ "]") ∧
    (top < bot →
      format_signal_slice { signal := sname, top := top, bot := bot } =
        sname ++ "[" ++ toString top ++ ":" ++ toString bot ++ "]") := by
  refine ⟨fun h => ?_, fun h => ?_, fun h => ?_⟩
  · subst h; simp [format_signal_slice]
  · have hne : top ≠ bot := by omega
    simp [format_signal_slice, hne]
  · have hne : top ≠ bot := by omega
    simp [format_signal_slice, hne]

/-- C6 witness: a single-bit slice, a descending range, an inverted one. -/
theorem claim_C6_witness :
    format_signal_slice { signal := "s", top := 2, bot := 2 } =
      "s" ++ "[" ++ toString (2 : Int) ++ "]" ∧
    format_signal_slice { signal := "s", top := 3, bot := 1 } =
      "s" ++ "[" ++ toString (3 : Int) ++ ":" ++ toString (1 : Int) ++ "]" ∧
    format_signal_slice { signal := "s", top := 1, bot := 3 } =
      "s" ++ "[" ++ toString (1 : Int) ++ ":" ++ toString (3 : Int) ++ "]" :=
  ⟨(claim_C6_slice_rendering "s" 2 2).1 rfl,
   (claim_C6_slice_rendering "s" 3 1).2.1 (by norm_num),
   (claim_C6_slice_rendering "s" 1 3).2.2 (by norm_num)⟩

/-- C7: a Concatenation renders each part recursively through the
connection formatter, joins the rendered parts with a comma separator,
wraps the result in Verilog concatenation braces, and preserves the given
left-to-right part order exactly (the rendered list is the order-preserving
map of the formatter over the parts). -/
theorem claim_C7_concat_rendering (parts : List Connection) :
    format_concat parts =
      "\x7b" ++ String.intercalate ", " (parts.map format_connection) ++ "\x7d" := by
  rw [format_concat, format_parts_eq_map]

/-- C8: a Port whose Direction is NONE (the representation of an unset or
none direction) makes the port-declaration formatter fail with an
UndirectedPort error carrying that port, and it never returns a declaration
string for it: the direction is not silently defaulted. -/
theorem claim_C8_undirected_port (pport : Port) (h : pport.direction = Direction.none) :
    format_port_decl pport = Except.error (NetlistError.undirectedPort pport) ∧
    ∀ s, format_port_decl pport ≠ Except.ok s := by
  have he : format_port_decl pport = Except.error (NetlistError.undirectedPort pport) := by
    unfold format_port_decl
    rw [h]
  exact ⟨he, fun s hs => by rw [he] at hs; cases hs⟩

/-- C8 witness: a port with direction NONE. -/
theorem claim_C8_witness :
    exPortNone.direction = Direction.none ∧
    (format_port_decl exPortNone = Except.error (NetlistError.undirectedPort exPortNone) ∧
     ∀ s, format_port_decl exPortNone ≠ Except.ok s) :=
  ⟨rfl, claim_C8_undirected_port exPortNone rfl⟩

/-- C9: two independent emission passes over the same circuit IR - each
with its own fresh destination, name registry and identity-to-definition
map - produce byte-identical output text and the same verdict; emission
depends on nothing but the pass state made explicit here. -/
theorem claim_C9_deterministic (modules : List Module) (s1 s2 : NetlisterState)
    (h1i : s1.indent = 0) (h1d : s1.dest = []) (h1n : s1.module_names = []) (h1p : s1.pmodules = [])
    (h2i : s2.indent = 0) (h2d : s2.dest = []) (h2n : s2.module_names = []) (h2p : s2.pmodules = []) :
    output (run_pass s1 modules).1 = output (run_pass s2 modules).1 ∧
    (run_pass s1 modules).2 = (run_pass s2 modules).2 := by
  have h12 : s1 = s2 := by
    cases s1; cases s2; simp_all
  rw [h12]
  exact ⟨rfl, rfl⟩

/-- C9 witness: two fresh passes over a one-module circuit. -/
theorem claim_C9_witness :
    output (run_pass initial_state [exTarget]).1 = output (run_pass initial_state [exTarget]).1 ∧
    (run_pass initial_state [exTarget]).2 = (run_pass initial_state [exTarget]).2 :=
  claim_C9_deterministic [exTarget] initial_state initial_state
    rfl rfl rfl rfl rfl rfl rfl rfl

end Hdl21
